import Mathlib

/-!
Verification development for the micropython chord-machine repository.

The Python sources are embedded shallowly: each Python function or method
used by the claims becomes a Lean definition over explicit state values.
Python integers are modelled as `Int` (arbitrary precision); Python `%` and
`//` on a positive divisor are `Int.emod` and `Int.ediv`; Python dicts with
insertion order are association lists with update-in-place / append-on-new
semantics; a Python statement that can raise (`dict[key]`, `list[i]`) is
modelled with `Option`, `none` standing for the raised exception.
-/

namespace ChordMachine

/-! ## music_theory.py -/

/-- Scale table `SCALES` from music_theory.py, as an insertion-ordered
association list (dict order matters for `get_scale_names`). -/
def SCALES : List (String × List Int) :=
  [("major", [0, 2, 4, 5, 7, 9, 11]),
   ("natural_minor", [0, 2, 3, 5, 7, 8, 10]),
   ("harmonic_minor", [0, 2, 3, 5, 7, 8, 11]),
   ("melodic_minor", [0, 2, 3, 5, 7, 9, 11]),
   ("dorian", [0, 2, 3, 5, 7, 9, 10]),
   ("phrygian", [0, 1, 3, 5, 7, 8, 10]),
   ("lydian", [0, 2, 4, 6, 7, 9, 11]),
   ("mixolydian", [0, 2, 4, 5, 7, 9, 10]),
   ("locrian", [0, 1, 3, 5, 6, 8, 10])]

/-- Dictionary lookup `SCALES[name]` without a default: `none` models the
`KeyError` raised by Python on a missing key. -/
def scalesFind (name : String) : Option (List Int) :=
  (SCALES.find? (fun p => p.1 == name)).map (·.2)

/-- Lookup `SCALES.get(name, SCALES["major"])` with the major-scale default,
as used by `get_chord_quality_in_scale` and `get_scale_degrees`. -/
def scalesGetD (name : String) : List Int :=
  (scalesFind name).getD [0, 2, 4, 5, 7, 9, 11]

/-- Note-name table `NOTE_NAMES` from music_theory.py (the twelve pitch
class names in sharp spelling, written as two halves). -/
def NOTE_NAMES : List String :=
  ["C", "C#", "D", "D#", "E", "F"] ++ ["F#", "G", "G#", "A", "A#", "B"]

/-- Chord interval table `CHORD_TYPES` from music_theory.py. -/
def CHORD_TYPES : List (String × List Int) :=
  [("major", [0, 4, 7]),
   ("minor", [0, 3, 7]),
   ("diminished", [0, 3, 6]),
   ("augmented", [0, 4, 8]),
   ("major7", [0, 4, 7, 11]),
   ("minor7", [0, 3, 7, 10]),
   ("dominant7", [0, 4, 7, 10]),
   ("diminished7", [0, 3, 6, 9]),
   ("half_diminished7", [0, 3, 6, 10])]

/-- Dictionary lookup `CHORD_TYPES[quality]`; `none` models `KeyError`. -/
def chordTypesFind (quality : String) : Option (List Int) :=
  (CHORD_TYPES.find? (fun p => p.1 == quality)).map (·.2)

/-- Table `ROMAN_NUMERALS` from music_theory.py. -/
def ROMAN_NUMERALS : List String :=
  ["I", "II", "III", "IV", "V", "VI", "VII"]

/-- Function `get_scale_names()`: the keys of `SCALES` in insertion order. -/
def get_scale_names : List String := SCALES.map (·.1)

/-- Function `get_chord_quality_in_scale(scale_name, degree)` from
music_theory.py: determines the triad quality from the third and fifth
interval sizes, defaulting to `"major"` for an unknown pattern and using
the major scale for an unknown scale name. -/
def get_chord_quality_in_scale (scale_name : String) (degree : Nat) : String :=
  let scale := scalesGetD scale_name
  let root_interval := scale.getD degree 0
  let third_interval := scale.getD ((degree + 2) % 7) 0
  let fifth_interval := scale.getD ((degree + 4) % 7) 0
  let third_interval :=
    if third_interval < root_interval then third_interval + 12 else third_interval
  let fifth_interval :=
    if fifth_interval < root_interval then fifth_interval + 12 else fifth_interval
  let third_size := third_interval - root_interval
  let fifth_size := fifth_interval - root_interval
  if third_size == 4 && fifth_size == 7 then "major"
  else if third_size == 3 && fifth_size == 7 then "minor"
  else if third_size == 3 && fifth_size == 6 then "diminished"
  else if third_size == 4 && fifth_size == 8 then "augmented"
  else "major"

/-! ## chord_engine.py -/

/-- Octave bounds from constants.py (`Octave.MIN`, `Octave.MAX`). -/
def Octave.MIN : Int := 2

/-- Upper octave bound from constants.py. -/
def Octave.MAX : Int := 9

/-- State of `ChordEngine` from chord_engine.py: the private fields
`_root_note_class`, `_octave`, `_scale_name`, `_scale_index` (the list
`_available_scales` is always `get_scale_names` and is left implicit). -/
structure ChordEngine where
  root_note_class : Int
  octave : Int
  scale_name : String
  scale_index : Nat
  deriving DecidableEq, Repr

/-- Constructor `ChordEngine.__init__(root_note, scale_name)`: splits the
MIDI root into note class (`% 12`) and octave (`// 12`), with no clamping,
and records the scale index when the name is known. -/
def ChordEngine.init (root_note : Int) (scale_name : String) : ChordEngine :=
  { root_note_class := root_note % 12
    octave := root_note / 12
    scale_name := scale_name
    scale_index :=
      if get_scale_names.contains scale_name then
        get_scale_names.indexOf scale_name
      else 0 }

/-- Property `root_note`: recombines octave and note class. -/
def ChordEngine.root_note (e : ChordEngine) : Int :=
  e.octave * 12 + e.root_note_class

/-- Setter for `scale_index`: wraps the index modulo the number of scales
and keeps `scale_name` in sync. -/
def ChordEngine.setScaleIndex (e : ChordEngine) (index : Int) : ChordEngine :=
  let n : Int := get_scale_names.length
  let i := (index % n).toNat
  { e with scale_name := get_scale_names.getD i "", scale_index := i }

/-- Setter for `scale_name`: updates name and index only when the name is a
key of `SCALES`. -/
def ChordEngine.setScaleName (e : ChordEngine) (name : String) : ChordEngine :=
  if (scalesFind name).isSome then
    { e with scale_name := name, scale_index := get_scale_names.indexOf name }
  else e

/-- Method `next_scale()`. -/
def ChordEngine.next_scale (e : ChordEngine) : ChordEngine :=
  e.setScaleIndex ((e.scale_index : Int) + 1)

/-- Method `prev_scale()`. -/
def ChordEngine.prev_scale (e : ChordEngine) : ChordEngine :=
  e.setScaleIndex ((e.scale_index : Int) - 1)

/-- Method `set_root_note_class(note_class)`. -/
def ChordEngine.set_root_note_class (e : ChordEngine) (note_class : Int) : ChordEngine :=
  { e with root_note_class := note_class % 12 }

/-- Method `cycle_root_note(delta)`. -/
def ChordEngine.cycle_root_note (e : ChordEngine) (delta : Int) : ChordEngine :=
  { e with root_note_class := (e.root_note_class + delta) % 12 }

/-- Method `set_octave(octave)`: clamps to `[Octave.MIN, Octave.MAX]`. -/
def ChordEngine.set_octave (e : ChordEngine) (octave : Int) : ChordEngine :=
  { e with octave := max Octave.MIN (min Octave.MAX octave) }

/-- Method `change_octave(delta)`: adds and clamps. -/
def ChordEngine.change_octave (e : ChordEngine) (delta : Int) : ChordEngine :=
  { e with octave := max Octave.MIN (min Octave.MAX (e.octave + delta)) }

/-- Helper for `get_chord`: lowercases a roman numeral (`numeral.lower()`),
written charwise so that it evaluates by kernel reduction. -/
def strLower (s : String) : String := String.mk (s.toList.map Char.toLower)

/-- Helper for `get_chord`: the `suffixes.get(quality, "")` lookup. -/
def qualitySuffix (quality : String) : String :=
  if quality == "major" then ""
  else if quality == "minor" then "m"
  else if quality == "diminished" then "dim"
  else if quality == "augmented" then "aug"
  else ""

/-- Method `get_chord(degree)` from chord_engine.py. The direct dictionary
access `SCALES[self._scale_name]` raises `KeyError` for an unknown scale
name, modelled by `none`; the subsequent `CHORD_TYPES[quality]` access is
modelled the same way. Returns `(chord_notes, chord_name, numeral)`. -/
def ChordEngine.get_chord (e : ChordEngine) (degree : Int) :
    Option (List Int × String × String) :=
  let d := if 0 ≤ degree ∧ degree ≤ 6 then degree else degree % 7
  (scalesFind e.scale_name).bind fun scale =>
  let quality := get_chord_quality_in_scale e.scale_name d.toNat
  (chordTypesFind quality).bind fun chord_intervals =>
  let chord_root := e.root_note + scale.getD d.toNat 0
  let chord_notes := chord_intervals.map (fun interval => chord_root + interval)
  let root_name := NOTE_NAMES.getD (chord_root % 12).toNat ""
  let chord_name := root_name ++ qualitySuffix quality
  let numeral0 := ROMAN_NUMERALS.getD d.toNat ""
  let numeral1 :=
    if quality == "minor" || quality == "diminished" then strLower numeral0 else numeral0
  let numeral := if quality == "diminished" then numeral1 ++ "°" else numeral1
  some (chord_notes, chord_name, numeral)

/-- Convenience projection: just the note list of `get_chord`, with `[]`
when the lookup failed; used to phrase trigger-time note recording. -/
def ChordEngine.chordNotes (e : ChordEngine) (degree : Int) : List Int :=
  match e.get_chord degree with
  | some (notes, _, _) => notes
  | none => []

/-- Helper for `get_scale_display_name`: Python capitalization of one word
(`word[0].upper() + word[1:]` guarded by the empty word). -/
def capitalizeWord (w : String) : String :=
  match w.toList with
  | [] => w
  | c :: cs => String.mk (c.toUpper :: cs)

/-- Helper modelling `self._scale_name.replace("_", " ")` (the pattern is a
single character, so a charwise map is equivalent). -/
def underscoreToSpace (s : String) : String :=
  String.mk (s.toList.map (fun c => if c == '_' then ' ' else c))

/-- Helper modelling `str.split(" ")`: splits a character list at each
space, keeping empty chunks, like Python `split` with an explicit
separator. -/
def splitAtSpace : List Char → List Char → List String
  | [], acc => [String.mk acc.reverse]
  | c :: rest, acc =>
    if c == ' ' then String.mk acc.reverse :: splitAtSpace rest []
    else splitAtSpace rest (c :: acc)

/-- Helper modelling `" ".join(words)`. -/
def joinWithSpace (ws : List String) : String :=
  String.mk (List.flatten (List.intersperse [' '] (ws.map (·.toList))))

/-- Method `get_scale_display_name()` from chord_engine.py. -/
def ChordEngine.get_scale_display_name (e : ChordEngine) : String :=
  let root_name := NOTE_NAMES.getD ((e.root_note % 12)).toNat ""
  let scale_words := splitAtSpace (underscoreToSpace e.scale_name).toList []
  let capitalized := scale_words.map capitalizeWord
  root_name ++ " " ++ joinWithSpace capitalized

/-! ## constants.py: UI modes -/

/-- Mode string `Mode.PLAY`. -/
def Mode.PLAY : String := "play"

/-- Mode string `Mode.ROOT_SELECT`. -/
def Mode.ROOT_SELECT : String := "root_select"

/-- Mode string `Mode.SCALE_SELECT`. -/
def Mode.SCALE_SELECT : String := "scale_select"

/-- Mode cycle order `Mode.ALL`. -/
def Mode.ALL : List String := [Mode.PLAY, Mode.ROOT_SELECT, Mode.SCALE_SELECT]

/-! ## ui_state.py -/

/-- Events emitted through the publish/subscribe channel (`Event` constants
of ui_state.py, with the payload dict of each `emit` call flattened into
constructor arguments). `chordHoldChanged` belongs to the chord-hold state
machine referenced by chord_machine_app.py and the test suite. -/
inductive UIEvent where
  | scaleChanged (index : Nat) (name : String)
  | chordTriggered (degree : Nat) (notes : List Int) (name numeral : String)
  | chordReleased (degree : Nat)
  | encoderChanged (value delta : Int)
  | modeChanged (mode : String)
  | rootChanged (root_note root_note_class octave : Int)
  | chordHoldChanged (chord_hold : Bool)
  deriving DecidableEq, Repr

/-- State of `UIState` from ui_state.py (`chord_engine` is owned state; the
subscriber table is replaced by returning the emitted event list). -/
structure UIState where
  engine : ChordEngine
  current_scale_index : Nat
  active_chord_degree : Option Nat
  encoder_value : Int
  mode : String
  led_states : List Bool
  display_dirty : Bool
  deriving DecidableEq, Repr

/-- Constructor `UIState.__init__(chord_engine)`. -/
def UIState.init (e : ChordEngine) : UIState :=
  { engine := e
    current_scale_index := e.scale_index
    active_chord_degree := none
    encoder_value := 0
    mode := Mode.PLAY
    led_states := List.replicate 8 false
    display_dirty := true }

/-- Method `set_scale(index)`: updates the index, syncs the engine through
its `scale_index` setter, sets the dirty flag and emits `SCALE_CHANGED`. -/
def UIState.set_scale (s : UIState) (index : Nat) : UIState × List UIEvent :=
  let e := s.engine.setScaleIndex index
  ({ s with current_scale_index := index, engine := e, display_dirty := true },
   [UIEvent.scaleChanged index e.scale_name])

/-- Method `trigger_chord(degree)`: records the active degree, lights the
LED, computes the chord, sets the dirty flag and emits `CHORD_TRIGGERED`.
`none` models the exceptions Python would raise (`IndexError` on
`led_states[degree]` for `degree >= 8`, `KeyError` inside `get_chord`). -/
def UIState.trigger_chord (s : UIState) (degree : Nat) :
    Option (UIState × List UIEvent) :=
  if degree < 8 then
    (s.engine.get_chord degree).map fun (chord_notes, chord_name, numeral) =>
      ({ s with active_chord_degree := some degree
                led_states := s.led_states.set degree true
                display_dirty := true },
       [UIEvent.chordTriggered degree chord_notes chord_name numeral])
  else none

/-- Method `release_chord(degree)`: clears the active degree when it
matches, turns the LED off and emits `CHORD_RELEASED`. Note that it does
NOT touch `display_dirty`. -/
def UIState.release_chord (s : UIState) (degree : Nat) :
    Option (UIState × List UIEvent) :=
  if degree < 8 then
    some ({ s with
              active_chord_degree :=
                if s.active_chord_degree == some degree then none
                else s.active_chord_degree
              led_states := s.led_states.set degree false },
          [UIEvent.chordReleased degree])
  else none

/-- Method `update_encoder(delta)`: accumulates the value, emits
`ENCODER_CHANGED`, then dispatches by mode (play: octave; root select:
root class; scale select: next/prev scale through `set_scale`). -/
def UIState.update_encoder (s : UIState) (delta : Int) : UIState × List UIEvent :=
  let s1 := { s with encoder_value := s.encoder_value + delta }
  let ev0 := UIEvent.encoderChanged s1.encoder_value delta
  if s1.mode == Mode.PLAY then
    let e := s1.engine.change_octave delta
    ({ s1 with engine := e, display_dirty := true },
     [ev0, UIEvent.rootChanged e.root_note e.root_note_class e.octave])
  else if s1.mode == Mode.ROOT_SELECT then
    let e := s1.engine.cycle_root_note delta
    ({ s1 with engine := e, display_dirty := true },
     [ev0, UIEvent.rootChanged e.root_note e.root_note_class e.octave])
  else if s1.mode == Mode.SCALE_SELECT then
    let e := if delta > 0 then s1.engine.next_scale else s1.engine.prev_scale
    let r := UIState.set_scale { s1 with engine := e } e.scale_index
    (r.1, ev0 :: r.2)
  else (s1, [ev0])

/-- Method `toggle_mode()`: advances cyclically through `Mode.ALL`, sets
the dirty flag and emits `MODE_CHANGED`. -/
def UIState.toggle_mode (s : UIState) : UIState × List UIEvent :=
  let idx := Mode.ALL.indexOf s.mode
  let m := Mode.ALL.getD ((idx + 1) % Mode.ALL.length) ""
  ({ s with mode := m, display_dirty := true }, [UIEvent.modeChanged m])

/-- Method `set_mode(mode)`: only acts when the mode is a member of
`Mode.ALL`. -/
def UIState.set_mode (s : UIState) (m : String) : UIState × List UIEvent :=
  if Mode.ALL.contains m then
    ({ s with mode := m, display_dirty := true }, [UIEvent.modeChanged m])
  else (s, [])

/-- Return value of `get_display_data()`. -/
structure DisplayData where
  scale_name : String
  active_chord : Option (String × String)
  mode : String
  root_note : Int
  root_note_class : Int
  octave : Int
  deriving DecidableEq, Repr

/-- Method `get_display_data()`: reads the display-relevant state; `none`
models the `KeyError` that `get_chord` would raise for an unknown scale. -/
def UIState.get_display_data (s : UIState) : Option DisplayData :=
  let base (chord_info : Option (String × String)) : DisplayData :=
    { scale_name := s.engine.get_scale_display_name
      active_chord := chord_info
      mode := s.mode
      root_note := s.engine.root_note
      root_note_class := s.engine.root_note_class
      octave := s.engine.octave }
  match s.active_chord_degree with
  | none => some (base none)
  | some d => (s.engine.get_chord d).map fun r => base (some (r.2.1, r.2.2))

/-- Method `clear_display_dirty()`: the only place that resets the flag. -/
def UIState.clear_display_dirty (s : UIState) : UIState :=
  { s with display_dirty := false }

/-- Operations of the `UIState` state machine, for quantifying over all
mutating entry points. -/
inductive UIOp where
  | setScale (index : Nat)
  | triggerChord (degree : Nat)
  | releaseChord (degree : Nat)
  | updateEncoder (delta : Int)
  | toggleMode
  | setMode (m : String)
  deriving DecidableEq, Repr

/-- Dispatcher applying one `UIOp` to a `UIState`. -/
def UIState.applyOp (s : UIState) : UIOp → Option (UIState × List UIEvent)
  | .setScale i => some (s.set_scale i)
  | .triggerChord d => s.trigger_chord d
  | .releaseChord d => s.release_chord d
  | .updateEncoder delta => some (s.update_encoder delta)
  | .toggleMode => some s.toggle_mode
  | .setMode m => some (s.set_mode m)

/-! ## Python dict helpers

Insertion-ordered association lists standing for Python dicts: assigning an
existing key updates it in place, assigning a new key appends, `del`
removes, and iteration follows list order (`next(iter(d.keys()))` is the
head). -/

/-- Assignment `d[k] = v` on an insertion-ordered dict. -/
def dictSet {α : Type} : List (Nat × α) → Nat → α → List (Nat × α)
  | [], k, v => [(k, v)]
  | (k0, v0) :: rest, k, v =>
    if k0 = k then (k0, v) :: rest else (k0, v0) :: dictSet rest k v

/-- Statement `del d[k]` (removes the first entry with the key). -/
def dictDel {α : Type} : List (Nat × α) → Nat → List (Nat × α)
  | [], _ => []
  | (k0, v0) :: rest, k =>
    if k0 = k then rest else (k0, v0) :: dictDel rest k

/-- Lookup `d.get(k)` / the `k in d` test. -/
def dictFind {α : Type} : List (Nat × α) → Nat → Option α
  | [], _ => none
  | (k0, v0) :: rest, k => if k0 = k then some v0 else dictFind rest k

/-! ## chord_machine_app.py: output coordinator -/

/-- MIDI messages the coordinator hands to `hw.midi_output`. The chord
convenience calls expand per note exactly as the `MidiOutputHAL` base class
in hal_protocol.py does (`send_chord_on` / `send_chord_off` loop over the
notes). -/
inductive MidiMsg where
  | noteOn (channel note velocity : Int)
  | noteOff (channel note velocity : Int)
  deriving DecidableEq, Repr

/-- State of `ChordMachineApp` relevant to MIDI bookkeeping: the owned
`UIState`, the configuration, the two active-note maps, the LED-strip
degree, and the log of MIDI messages sent so far (display and LED calls
carry no MIDI data and are not recorded). -/
structure AppState where
  ui : UIState
  midi_channel : Int
  velocity : Int
  active_notes_by_degree : List (Nat × List Int)
  active_notes_by_pad : List (Nat × Int)
  current_chord_degree : Option Nat
  midi_log : List MidiMsg
  deriving DecidableEq, Repr

/-- Handler `on_chord_triggered` from `_setup_event_handlers`: sends note-on
for every chord note, records the note list under the degree, and tracks
the current chord degree. -/
def onChordTriggered (a : AppState) (degree : Nat) (notes : List Int) : AppState :=
  { a with
      midi_log := a.midi_log ++
        notes.map (fun n => MidiMsg.noteOn a.midi_channel n a.velocity)
      active_notes_by_degree := dictSet a.active_notes_by_degree degree notes
      current_chord_degree := some degree }

/-- Handler `on_chord_released`: when the degree has recorded notes, sends
note-off for exactly those notes and deletes the record; then updates the
current chord degree to the first remaining key (or clears it). -/
def onChordReleased (a : AppState) (degree : Nat) : AppState :=
  let a1 :=
    match dictFind a.active_notes_by_degree degree with
    | some notes =>
      { a with
          midi_log := a.midi_log ++
            notes.map (fun n => MidiMsg.noteOff a.midi_channel n 0)
          active_notes_by_degree := dictDel a.active_notes_by_degree degree }
    | none => a
  if a1.current_chord_degree == some degree then
    { a1 with
        current_chord_degree :=
          match a1.active_notes_by_degree with
          | [] => none
          | (k, _) :: _ => some k }
  else a1

/-- Event dispatch of the app: the handlers registered for scale, mode,
root, encoder and hold events only redraw the display and LEDs, so they
leave the MIDI bookkeeping state unchanged. -/
def dispatchEvent (a : AppState) : UIEvent → AppState
  | .chordTriggered degree notes _ _ => onChordTriggered a degree notes
  | .chordReleased degree => onChordReleased a degree
  | _ => a

/-- Sequential synchronous dispatch of an emitted event list. -/
def dispatchEvents (a : AppState) (evs : List UIEvent) : AppState :=
  evs.foldl dispatchEvent a

/-- App-level chord trigger: the `ui_state.trigger_chord(i)` call of
`ChordMachineApp.update` together with the resulting handler cascade. -/
def AppState.triggerChord (a : AppState) (degree : Nat) : Option AppState :=
  (a.ui.trigger_chord degree).map fun r => dispatchEvents { a with ui := r.1 } r.2

/-- App-level chord release: `ui_state.release_chord(i)` plus handlers. -/
def AppState.releaseChord (a : AppState) (degree : Nat) : Option AppState :=
  (a.ui.release_chord degree).map fun r => dispatchEvents { a with ui := r.1 } r.2

/-- App-level encoder rotation: `ui_state.update_encoder(delta)` plus
handlers. -/
def AppState.updateEncoder (a : AppState) (delta : Int) : AppState :=
  let r := a.ui.update_encoder delta
  dispatchEvents { a with ui := r.1 } r.2

/-- App-level mode toggle. -/
def AppState.toggleMode (a : AppState) : AppState :=
  let r := a.ui.toggle_mode
  dispatchEvents { a with ui := r.1 } r.2

/-- App-level `set_mode`. -/
def AppState.setMode (a : AppState) (m : String) : AppState :=
  let r := a.ui.set_mode m
  dispatchEvents { a with ui := r.1 } r.2

/-- App-level `set_scale`. -/
def AppState.setScale (a : AppState) (i : Nat) : AppState :=
  let r := a.ui.set_scale i
  dispatchEvents { a with ui := r.1 } r.2

/-- Method `cleanup()` from chord_machine_app.py: note-off for every note
recorded per degree, then per pad, then both maps are reassigned empty
(LED and display clearing carries no MIDI data). -/
def AppState.cleanup (a : AppState) : AppState :=
  { a with
      midi_log := a.midi_log ++
        (a.active_notes_by_degree.map (fun p =>
          p.2.map (fun n => MidiMsg.noteOff a.midi_channel n 0))).flatten ++
        a.active_notes_by_pad.map (fun p => MidiMsg.noteOff a.midi_channel p.2 0)
      active_notes_by_degree := []
      active_notes_by_pad := [] }

/-- Root, scale, octave and mode changes that can occur between a chord
trigger and its release (every app entry point other than chord
trigger/release). -/
inductive MidOp where
  | setScale (i : Nat)
  | updateEncoder (delta : Int)
  | toggleMode
  | setMode (m : String)
  deriving DecidableEq, Repr

/-- Applies one mid-hold operation at the app level. -/
def applyMid (a : AppState) : MidOp → AppState
  | .setScale i => a.setScale i
  | .updateEncoder delta => a.updateEncoder delta
  | .toggleMode => a.toggleMode
  | .setMode m => a.setMode m

/-- Applies a sequence of mid-hold operations. -/
def applyMids (a : AppState) (ops : List MidOp) : AppState :=
  ops.foldl applyMid a

/-! ## hal_mcu.py: MCUTripleMidiOutputHAL -/

/-- Control Change call as received by one MIDI output path (`Midi` on the
two hardware UARTs, `SoftwareMidiTx` on the third); one entry per
`send_control_change` invocation on that path. -/
structure CCMsg where
  channel : Int
  control : Int
  value : Int
  deriving DecidableEq, Repr

/-- Logs of the three MIDI output paths of `MCUTripleMidiOutputHAL`
(`self.midi1`, `self.midi2`, `self.midi3`). -/
structure TripleMidi where
  midi1 : List CCMsg
  midi2 : List CCMsg
  midi3 : List CCMsg
  deriving DecidableEq, Repr

/-- One path-level `send_control_change(channel, control, value)`: the path
emits one Control Change message. -/
def pathSendControlChange (log : List CCMsg) (channel control value : Int) :
    List CCMsg :=
  log ++ [{ channel := channel, control := control, value := value }]

/-- Method `MCUTripleMidiOutputHAL.send_control_change` transcribed
line by line from hal_mcu.py: it forwards to `midi1`, `midi2`, `midi3`,
and then to `midi2` a second time. -/
def TripleMidi.send_control_change (t : TripleMidi) (channel control value : Int) :
    TripleMidi :=
  let t := { t with midi1 := pathSendControlChange t.midi1 channel control value }
  let t := { t with midi2 := pathSendControlChange t.midi2 channel control value }
  let t := { t with midi3 := pathSendControlChange t.midi3 channel control value }
  let t := { t with midi2 := pathSendControlChange t.midi2 channel control value }
  t

/-! ## hal_mcu.py: SoftwareMidiTx -/

/-- Bit time in RMT ticks (`self._bit_ticks`): 32 ticks of 1 microsecond at
31250 baud. -/
def bitTicks : Nat := 32

/-- Method `SoftwareMidiTx._byte_to_pulses(byte)`: start bit low for one
bit time, the 8 data bits least-significant-bit first, stop bit high;
returns the `(durations, levels)` pair handed to `RMT.write_pulses`. -/
def byteToPulses (bit_ticks : Nat) (byte : Nat) : List Nat × List Bool :=
  ([bit_ticks] ++ (List.range 8).map (fun _ => bit_ticks) ++ [bit_ticks],
   [false] ++ (List.range 8).map (fun i => ((byte >>> i) &&& 1) != 0) ++ [true])

/-! ## plat_mcu/utils/button.py -/

/-- State of `Button` from button.py. Raw and stable levels are the sampled
pin values (pull-up wiring: 0 means physically pressed); timestamps are
millisecond tick values, with `time.ticks_diff(a, b)` modelled as `a - b`
on `Int`. -/
structure Button where
  debounce_ms : Int
  long_press_ms : Int
  last_raw : Int
  stable : Int
  last_change : Int
  pressed_time : Option Int
  pressed_event : Bool
  released_event : Bool
  long_press_event : Bool
  deriving DecidableEq, Repr

/-- Method `is_pressed()`: pull-up logic, stable low means pressed. -/
def Button.is_pressed (b : Button) : Bool := b.stable == 0

/-- First block of `update()`: when the raw level changed, restart the
debounce window and remember the raw level. -/
def Button.updateRawTracking (b : Button) (now raw : Int) : Button :=
  if raw ≠ b.last_raw then { b with last_change := now, last_raw := raw } else b

/-- Second block of `update()`: when the raw level has been stable for at
least `debounce_ms` and differs from the committed level, commit the
transition, raise the one-shot pressed/released event and arm (press) or
disarm (release) the long-press timer. -/
def Button.updateCommit (b : Button) (now raw : Int) : Button :=
  if b.debounce_ms ≤ now - b.last_change ∧ raw ≠ b.stable then
    let b := { b with stable := raw }
    if b.is_pressed then
      { b with pressed_event := true, pressed_time := some now }
    else
      { b with released_event := true, pressed_time := none }
  else b

/-- Third block of `update()`: while committed-pressed with an armed timer,
fire the long-press event once the threshold is reached and disarm the
timer so it cannot fire again during the same hold. -/
def Button.updateLongPress (b : Button) (now : Int) : Button :=
  if b.is_pressed then
    match b.pressed_time with
    | some t =>
      if b.long_press_ms ≤ now - t then
        { b with long_press_event := true, pressed_time := none }
      else b
    | none => b
  else b

/-- Method `update()` with the current tick count and the sampled raw pin
level: the three blocks in source order. -/
def Button.update (b : Button) (now : Int) (raw : Int) : Button :=
  ((b.updateRawTracking now raw).updateCommit now raw).updateLongPress now

/-- Method `was_long_pressed()`: one-shot query, clears the event flag on
the first read after it fires. -/
def Button.was_long_pressed (b : Button) : Button × Bool :=
  if b.long_press_event then ({ b with long_press_event := false }, true)
  else (b, false)

/-- One main-loop iteration while the button is held: `update(now, raw=0)`
followed by the `was_long_pressed()` query, as `ChordMachineApp.update`
polls it. -/
def Button.heldStep (b : Button) (now : Int) : Button × Bool :=
  (b.update now 0).was_long_pressed

/-- Number of loop iterations in `times` whose `was_long_pressed` query
returns `True`, while the button stays physically held (raw level 0). -/
def Button.heldFires : Button → List Int → Nat
  | _, [] => 0
  | b, t :: ts =>
    let r := b.heldStep t
    (if r.2 then 1 else 0) + Button.heldFires r.1 ts

/-! ## chord-hold UI state machine (C1)

Modelled from the spec: the chord-hold-capable `UIState` (fields
`chord_hold`, `held_chord_degree` and a per-degree active chord set, with
methods `toggle_chord_hold`, hold-aware `trigger_chord` and
`release_chord`) is referenced by `chord_machine_app.py`
(`Event.CHORD_HOLD_CHANGED`, `self.ui_state.toggle_chord_hold()`) and by
`test/test_chord_machine.py`, but the `ui_state.py` present under `src/`
predates the feature and does not contain it. The definitions below follow
spec section 4.3 and the hold scenarios of section 8. -/

/-- Modelled from the spec: state of the chord-hold UI state machine
(section 4.3): the chord-hold flag, the optional held degree, and the
active chord set mapping degree to the note list recorded at trigger
time. -/
structure HoldUIState where
  engine : ChordEngine
  chord_hold : Bool
  held_chord_degree : Option Nat
  active_chords : List (Nat × List Int)
  deriving DecidableEq, Repr

/-- Modelled from the spec: `trigger_chord(degree)` under chord hold.
Triggering a new chord while one is held implicitly releases the previous
held chord first (`ChordReleased{held}` fires before
`ChordTriggered{degree}` and the held entry leaves the active set); the
chord is computed by the music engine, recorded in the active set, and the
degree becomes the held degree while hold is on. -/
def HoldUIState.trigger_chord (s : HoldUIState) (degree : Nat) :
    Option (HoldUIState × List UIEvent) :=
  (s.engine.get_chord degree).map fun (chord_notes, chord_name, numeral) =>
    let prior :=
      match s.chord_hold, s.held_chord_degree with
      | true, some h =>
        if h ≠ degree then
          some ({ s with active_chords := dictDel s.active_chords h
                         held_chord_degree := none }, h)
        else none
      | _, _ => none
    let s1 := (prior.map (·.1)).getD s
    let releaseEvents := match prior with
      | some (_, h) => [UIEvent.chordReleased h]
      | none => []
    let s2 := { s1 with
                  active_chords := dictSet s1.active_chords degree chord_notes
                  held_chord_degree :=
                    if s1.chord_hold then some degree else s1.held_chord_degree }
    (s2, releaseEvents ++
      [UIEvent.chordTriggered degree chord_notes chord_name numeral])

/-- Modelled from the spec: `release_chord(degree)`. With chord hold OFF
the entry is removed from the active set and `ChordReleased{degree}` fires;
with chord hold ON the active set entry is left alone (sound continues)
and no release event fires. -/
def HoldUIState.release_chord (s : HoldUIState) (degree : Nat) :
    HoldUIState × List UIEvent :=
  if s.chord_hold then (s, [])
  else ({ s with active_chords := dictDel s.active_chords degree },
        [UIEvent.chordReleased degree])

/-- Modelled from the spec: `toggle_chord_hold()` flips the flag; turning
it off while a degree is held emits `ChordReleased{held_degree}`, removes
the held entry and clears the held degree; a `ChordHoldChanged` event
always fires. -/
def HoldUIState.toggle_chord_hold (s : HoldUIState) : HoldUIState × List UIEvent :=
  if s.chord_hold then
    match s.held_chord_degree with
    | some h =>
      ({ s with chord_hold := false, held_chord_degree := none
                active_chords := dictDel s.active_chords h },
       [UIEvent.chordReleased h, UIEvent.chordHoldChanged false])
    | none =>
      ({ s with chord_hold := false }, [UIEvent.chordHoldChanged false])
  else ({ s with chord_hold := true }, [UIEvent.chordHoldChanged true])

/-! ## engine operation sequences (C5) -/

/-- Mutating `ChordEngine` operations named by the root/octave invariant
claim. -/
inductive EngineOp where
  | setOctave (o : Int)
  | changeOctave (d : Int)
  | setRootNoteClass (n : Int)
  | cycleRootNote (d : Int)
  deriving DecidableEq, Repr

/-- Applies one engine operation. -/
def ChordEngine.applyEngineOp (e : ChordEngine) : EngineOp → ChordEngine
  | .setOctave o => e.set_octave o
  | .changeOctave d => e.change_octave d
  | .setRootNoteClass n => e.set_root_note_class n
  | .cycleRootNote d => e.cycle_root_note d

/-- Applies a sequence of engine operations in order. -/
def ChordEngine.applyEngineOps (e : ChordEngine) (ops : List EngineOp) : ChordEngine :=
  ops.foldl ChordEngine.applyEngineOp e

/-- Classifier separating the two events with registered MIDI handlers
from the display/LED-only events. -/
def isChordEvent : UIEvent → Bool
  | .chordTriggered _ _ _ _ => true
  | .chordReleased _ => true
  | _ => false

/-! ## dictionary lemmas -/

theorem dictFind_dictSet_self {α : Type} (m : List (Nat × α)) (k : Nat) (v : α) :
    dictFind (dictSet m k v) k = some v := by
  induction m with
  | nil => simp [dictSet, dictFind]
  | cons p rest ih =>
    obtain ⟨k0, v0⟩ := p
    by_cases h : k0 = k <;> simp [dictSet, dictFind, h, ih]

theorem dictFind_dictSet_ne {α : Type} (m : List (Nat × α)) (k k' : Nat) (v : α)
    (h : k' ≠ k) : dictFind (dictSet m k v) k' = dictFind m k' := by
  induction m with
  | nil =>
    have hne : ¬(k = k') := by omega
    simp [dictSet, dictFind, hne]
  | cons p rest ih =>
    obtain ⟨k0, v0⟩ := p
    by_cases h0 : k0 = k
    · subst h0
      have hne : ¬(k0 = k') := by omega
      simp [dictSet, dictFind, hne]
    · simp [dictSet, dictFind, h0, ih]

theorem dictFind_eq_none_of_not_mem {α : Type} (m : List (Nat × α)) (k : Nat)
    (h : k ∉ m.map Prod.fst) : dictFind m k = none := by
  induction m with
  | nil => simp [dictFind]
  | cons p rest ih =>
    obtain ⟨k0, v0⟩ := p
    simp only [List.map_cons, List.mem_cons] at h
    push_neg at h
    obtain ⟨hh1, hh2⟩ := h
    have hne : ¬(k0 = k) := by omega
    simp [dictFind, hne, ih hh2]

theorem dictFind_dictDel_self {α : Type} (m : List (Nat × α)) (k : Nat)
    (h : (m.map Prod.fst).Nodup) : dictFind (dictDel m k) k = none := by
  induction m with
  | nil => simp [dictDel, dictFind]
  | cons p rest ih =>
    obtain ⟨k0, v0⟩ := p
    simp only [List.map_cons, List.nodup_cons] at h
    by_cases h0 : k0 = k
    · subst h0
      simpa [dictDel] using dictFind_eq_none_of_not_mem rest k0 h.1
    · simp [dictDel, dictFind, h0, ih h.2]

/-! ## claim theorems -/

/-- C7: for the byte 0x90 the software-serial encoder produces exactly 10
timed segments of one bit time (32 microseconds) each: a low start bit,
the 8 data bits of 0x90 least-significant-bit first at logic levels
0,0,0,0,1,0,0,1, then a high stop bit. -/
theorem c7_byte_0x90_pulses :
    byteToPulses bitTicks 0x90 =
      (List.replicate 10 32,
       [false, false, false, false, false, true, false, false, true, true]) ∧
    (byteToPulses bitTicks 0x90).1.length = 10 ∧
    (byteToPulses bitTicks 0x90).2.length = 10 := by decide

/-- C2: evaluating `MCUTripleMidiOutputHAL.send_control_change` at the
concrete call (channel 0, control 7, value 100) starting from empty path
logs shows that path 1 and path 3 emit the Control Change once while path
2 (the second hardware UART) emits the identical message twice, because
the method forwards to `midi2` a second time after `midi3`; the claim that
each of the three paths emits exactly one message fails on path 2. -/
theorem c2_cc_uart2_duplicated :
    TripleMidi.send_control_change ⟨[], [], []⟩ 0 7 100 =
      { midi1 := [⟨0, 7, 100⟩],
        midi2 := [⟨0, 7, 100⟩, ⟨0, 7, 100⟩],
        midi3 := [⟨0, 7, 100⟩] } ∧
    (TripleMidi.send_control_change ⟨[], [], []⟩ 0 7 100).midi2.length ≠ 1 := by
  decide

/-- C4: a `ChordEngine` constructed with the unrecognized scale name
"chromatic" exists (the constructor stores the name unchecked), but
`get_chord(0)` hits the direct dictionary access `SCALES[self._scale_name]`
and raises `KeyError` (modelled by `none`) instead of falling back to the
major scale; only the chord-quality helper `get_chord_quality_in_scale`
performs the fallback. -/
theorem c4_unknown_scale_raises :
    (ChordEngine.init 60 "chromatic").scale_name = "chromatic" ∧
    (ChordEngine.init 60 "chromatic").get_chord 0 = none ∧
    get_chord_quality_in_scale "chromatic" 0 = "major" := by decide

/-- C5 counterexample: the constructor does not clamp the octave, so a
`ChordEngine` built from MIDI root note 0 has octave 0, below
`Octave.MIN = 2`; the claim that the octave is within [2, 9] immediately
after construction from any MIDI root note is false. -/
theorem c5_counterexample :
    (ChordEngine.init 0 "major").octave = 0 ∧
    (ChordEngine.init 0 "major").octave < Octave.MIN := by decide

/-- C5 (amended): after construction from ANY MIDI root note and after any
sequence of `set_octave`, `change_octave`, `set_root_note_class` and
`cycle_root_note` calls, the root note class is in [0, 11]; under the same
operations the octave is within [`Octave.MIN`, `Octave.MAX`] = [2, 9]
provided the constructing root note lies in [24, 119] (equivalently, its
octave component already lies in [2, 9] — the constructor splits but does
not clamp). -/
theorem c5_engine_invariants (root_note : Int) (scale_name : String)
    (ops : List EngineOp) :
    (0 ≤ ((ChordEngine.init root_note scale_name).applyEngineOps ops).root_note_class ∧
      ((ChordEngine.init root_note scale_name).applyEngineOps ops).root_note_class ≤ 11) ∧
    (24 ≤ root_note → root_note ≤ 119 →
      (Octave.MIN ≤ ((ChordEngine.init root_note scale_name).applyEngineOps ops).octave ∧
        ((ChordEngine.init root_note scale_name).applyEngineOps ops).octave ≤ Octave.MAX)) := by
  have hrncstep : ∀ (e : ChordEngine) (op : EngineOp),
      (0 ≤ e.root_note_class ∧ e.root_note_class ≤ 11) →
      (0 ≤ (e.applyEngineOp op).root_note_class ∧
        (e.applyEngineOp op).root_note_class ≤ 11) := by
    intro e op hrnc
    cases op with
    | setOctave o => exact hrnc
    | changeOctave d => exact hrnc
    | setRootNoteClass n =>
      show 0 ≤ n % 12 ∧ n % 12 ≤ 11
      omega
    | cycleRootNote d =>
      show 0 ≤ (e.root_note_class + d) % 12 ∧ (e.root_note_class + d) % 12 ≤ 11
      omega
  have hoctstep : ∀ (e : ChordEngine) (op : EngineOp),
      (Octave.MIN ≤ e.octave ∧ e.octave ≤ Octave.MAX) →
      (Octave.MIN ≤ (e.applyEngineOp op).octave ∧
        (e.applyEngineOp op).octave ≤ Octave.MAX) := by
    intro e op hoct
    cases op with
    | setOctave o =>
      show (2 : Int) ≤ max 2 (min 9 o) ∧ max 2 (min 9 o) ≤ 9
      exact ⟨le_max_left _ _, max_le (by norm_num) (min_le_left _ _)⟩
    | changeOctave d =>
      show (2 : Int) ≤ max 2 (min 9 (e.octave + d)) ∧ max 2 (min 9 (e.octave + d)) ≤ 9
      exact ⟨le_max_left _ _, max_le (by norm_num) (min_le_left _ _)⟩
    | setRootNoteClass n => exact hoct
    | cycleRootNote d => exact hoct
  have hrncall : ∀ (l : List EngineOp) (e : ChordEngine),
      (0 ≤ e.root_note_class ∧ e.root_note_class ≤ 11) →
      (0 ≤ (e.applyEngineOps l).root_note_class ∧
        (e.applyEngineOps l).root_note_class ≤ 11) := by
    intro l
    induction l with
    | nil => intro e hr; exact hr
    | cons op rest ih =>
      intro e hr
      exact ih (e.applyEngineOp op) (hrncstep e op hr)
  have hoctall : ∀ (l : List EngineOp) (e : ChordEngine),
      (Octave.MIN ≤ e.octave ∧ e.octave ≤ Octave.MAX) →
      (Octave.MIN ≤ (e.applyEngineOps l).octave ∧
        (e.applyEngineOps l).octave ≤ Octave.MAX) := by
    intro l
    induction l with
    | nil => intro e ho; exact ho
    | cons op rest ih =>
      intro e ho
      exact ih (e.applyEngineOp op) (hoctstep e op ho)
  constructor
  · apply hrncall
    show 0 ≤ root_note % 12 ∧ root_note % 12 ≤ 11
    omega
  · intro h1 h2
    apply hoctall
    show (2 : Int) ≤ root_note / 12 ∧ root_note / 12 ≤ 9
    omega

/-- C5 witness: the root-note-class conjunct exercised from the
out-of-range root note 0 (whose unclamped octave is 0), and the octave
conjunct from root note 60 with operations pushing past both clamps. -/
theorem c5_engine_invariants_witness :
    (0 ≤ ((ChordEngine.init 0 "major").applyEngineOps
        [EngineOp.cycleRootNote (-5), EngineOp.changeOctave 20]).root_note_class ∧
      ((ChordEngine.init 0 "major").applyEngineOps
        [EngineOp.cycleRootNote (-5), EngineOp.changeOctave 20]).root_note_class ≤ 11) ∧
    (Octave.MIN ≤ ((ChordEngine.init 60 "major").applyEngineOps
        [EngineOp.changeOctave 20, EngineOp.setOctave (-3),
         EngineOp.setRootNoteClass 14]).octave ∧
      ((ChordEngine.init 60 "major").applyEngineOps
        [EngineOp.changeOctave 20, EngineOp.setOctave (-3),
         EngineOp.setRootNoteClass 14]).octave ≤ Octave.MAX) :=
  ⟨(c5_engine_invariants 0 "major"
      [EngineOp.cycleRootNote (-5), EngineOp.changeOctave 20]).1,
   (c5_engine_invariants 60 "major"
      [EngineOp.changeOctave 20, EngineOp.setOctave (-3),
       EngineOp.setRootNoteClass 14]).2 (by decide) (by decide)⟩

/-- C8: `cleanup()` sends an explicit MIDI note-off for every note recorded
in the per-degree map and for every note recorded in the per-pad map, and
afterwards both maps are empty, for every app state. -/
theorem c8_cleanup_flushes_all (a : AppState) :
    (a.cleanup.active_notes_by_degree = [] ∧ a.cleanup.active_notes_by_pad = []) ∧
    (∀ d ns, (d, ns) ∈ a.active_notes_by_degree → ∀ n ∈ ns,
      MidiMsg.noteOff a.midi_channel n 0 ∈ a.cleanup.midi_log) ∧
    (∀ p n, (p, n) ∈ a.active_notes_by_pad →
      MidiMsg.noteOff a.midi_channel n 0 ∈ a.cleanup.midi_log) := by
  refine ⟨⟨rfl, rfl⟩, ?_, ?_⟩
  · intro d ns hmem n hn
    have h1 : MidiMsg.noteOff a.midi_channel n 0 ∈
        ns.map (fun n => MidiMsg.noteOff a.midi_channel n 0) :=
      List.mem_map.mpr ⟨n, hn, rfl⟩
    have h2 : ns.map (fun n => MidiMsg.noteOff a.midi_channel n 0) ∈
        a.active_notes_by_degree.map
          (fun p => p.2.map (fun n => MidiMsg.noteOff a.midi_channel n 0)) :=
      List.mem_map.mpr ⟨(d, ns), hmem, rfl⟩
    exact List.mem_append_left _
      (List.mem_append_right _ (List.mem_flatten.mpr ⟨_, h2, h1⟩))
  · intro p n hmem
    exact List.mem_append_right _ (List.mem_map.mpr ⟨(p, n), hmem, rfl⟩)

/-- C8 witness: cleanup of a concrete state holding chord notes 60, 64, 67
under degree 0 and pad note 72 under pad 3 emits note-off for 64 and for
72, and empties both maps. -/
theorem c8_cleanup_flushes_all_witness :
    (AppState.cleanup
        { ui := UIState.init (ChordEngine.init 60 "major"), midi_channel := 0,
          velocity := 100, active_notes_by_degree := [(0, [60, 64, 67])],
          active_notes_by_pad := [(3, 72)], current_chord_degree := some 0,
          midi_log := [] }).active_notes_by_degree = [] ∧
    MidiMsg.noteOff 0 64 0 ∈ (AppState.cleanup
        { ui := UIState.init (ChordEngine.init 60 "major"), midi_channel := 0,
          velocity := 100, active_notes_by_degree := [(0, [60, 64, 67])],
          active_notes_by_pad := [(3, 72)], current_chord_degree := some 0,
          midi_log := [] }).midi_log ∧
    MidiMsg.noteOff 0 72 0 ∈ (AppState.cleanup
        { ui := UIState.init (ChordEngine.init 60 "major"), midi_channel := 0,
          velocity := 100, active_notes_by_degree := [(0, [60, 64, 67])],
          active_notes_by_pad := [(3, 72)], current_chord_degree := some 0,
          midi_log := [] }).midi_log :=
  ⟨(c8_cleanup_flushes_all _).1.1,
   (c8_cleanup_flushes_all _).2.1 0 [60, 64, 67] (by simp) 64 (by simp),
   (c8_cleanup_flushes_all _).2.2 3 72 (by simp)⟩

/-- C10: when a `ChordReleased` event for a degree with no recorded notes
reaches the coordinator handler `on_chord_released`, no MIDI message is
sent and both note-tracking maps are unchanged. -/
theorem c10_unmatched_release_tolerated (a : AppState) (degree : Nat)
    (h : dictFind a.active_notes_by_degree degree = none) :
    (onChordReleased a degree).midi_log = a.midi_log ∧
    (onChordReleased a degree).active_notes_by_degree = a.active_notes_by_degree ∧
    (onChordReleased a degree).active_notes_by_pad = a.active_notes_by_pad := by
  simp only [onChordReleased, h]
  split <;> simp

/-- C10 witness: a release of degree 2 against a state that only records
degree 0 leaves log and maps unchanged. -/
theorem c10_unmatched_release_tolerated_witness :
    (onChordReleased
        { ui := UIState.init (ChordEngine.init 60 "major"), midi_channel := 0,
          velocity := 100, active_notes_by_degree := [(0, [60, 64, 67])],
          active_notes_by_pad := [], current_chord_degree := some 0,
          midi_log := [] } 2).midi_log = [] ∧
    (onChordReleased
        { ui := UIState.init (ChordEngine.init 60 "major"), midi_channel := 0,
          velocity := 100, active_notes_by_degree := [(0, [60, 64, 67])],
          active_notes_by_pad := [], current_chord_degree := some 0,
          midi_log := [] } 2).active_notes_by_degree = [(0, [60, 64, 67])] :=
  ⟨(c10_unmatched_release_tolerated _ 2 (by decide)).1,
   (c10_unmatched_release_tolerated _ 2 (by decide)).2.1⟩

/-! ## button lemmas (C9) -/

theorem button_rawTracking_stable (b : Button) (now raw : Int) :
    (b.updateRawTracking now raw).stable = b.stable := by
  unfold Button.updateRawTracking
  split <;> rfl

theorem button_rawTracking_pressed_time (b : Button) (now raw : Int) :
    (b.updateRawTracking now raw).pressed_time = b.pressed_time := by
  unfold Button.updateRawTracking
  split <;> rfl

theorem button_rawTracking_long_press_event (b : Button) (now raw : Int) :
    (b.updateRawTracking now raw).long_press_event = b.long_press_event := by
  unfold Button.updateRawTracking
  split <;> rfl

theorem button_rawTracking_long_press_ms (b : Button) (now raw : Int) :
    (b.updateRawTracking now raw).long_press_ms = b.long_press_ms := by
  unfold Button.updateRawTracking
  split <;> rfl

theorem button_rawTracking_eq (b : Button) (now raw : Int) (h : raw = b.last_raw) :
    b.updateRawTracking now raw = b := by
  simp [Button.updateRawTracking, h]

theorem button_commit_eq (b : Button) (now raw : Int) (h : raw = b.stable) :
    b.updateCommit now raw = b := by
  simp [Button.updateCommit, h]

theorem button_commit_skip (b : Button) (now raw : Int)
    (h : ¬(b.debounce_ms ≤ now - b.last_change ∧ raw ≠ b.stable)) :
    b.updateCommit now raw = b := by
  simp only [Button.updateCommit, if_neg h]

theorem button_longPress_stable (b : Button) (now : Int) :
    (b.updateLongPress now).stable = b.stable := by
  unfold Button.updateLongPress
  split <;> (try split) <;> (try split) <;> rfl

theorem button_longPress_below (b : Button) (now t0 : Int) (hst : b.stable = 0)
    (hpt : b.pressed_time = some t0) (h : ¬ b.long_press_ms ≤ now - t0) :
    b.updateLongPress now = b := by
  simp [Button.updateLongPress, Button.is_pressed, hst, hpt, h]

theorem button_longPress_fire (b : Button) (now t0 : Int) (hst : b.stable = 0)
    (hpt : b.pressed_time = some t0) (h : b.long_press_ms ≤ now - t0) :
    b.updateLongPress now =
      { b with long_press_event := true, pressed_time := none } := by
  simp [Button.updateLongPress, Button.is_pressed, hst, hpt, h]

theorem button_longPress_disarmed (b : Button) (now : Int)
    (hpt : b.pressed_time = none) : b.updateLongPress now = b := by
  simp [Button.updateLongPress, hpt]

theorem button_longPress_not_pressed (b : Button) (now : Int)
    (h : ¬ b.stable = 0) : b.updateLongPress now = b := by
  simp [Button.updateLongPress, Button.is_pressed, h]

theorem button_heldStep_below (b : Button) (t t0 : Int) (hst : b.stable = 0)
    (hlr : b.last_raw = 0) (hpt : b.pressed_time = some t0)
    (hev : b.long_press_event = false) (h : ¬ b.long_press_ms ≤ t - t0) :
    b.heldStep t = (b, false) := by
  unfold Button.heldStep Button.update
  rw [button_rawTracking_eq b t 0 hlr.symm, button_commit_eq b t 0 hst.symm,
    button_longPress_below b t t0 hst hpt h]
  simp [Button.was_long_pressed, hev]

theorem button_heldStep_fire (b : Button) (t t0 : Int) (hst : b.stable = 0)
    (hlr : b.last_raw = 0) (hpt : b.pressed_time = some t0)
    (h : b.long_press_ms ≤ t - t0) :
    b.heldStep t =
      ({ b with pressed_time := none, long_press_event := false }, true) := by
  unfold Button.heldStep Button.update
  rw [button_rawTracking_eq b t 0 hlr.symm, button_commit_eq b t 0 hst.symm,
    button_longPress_fire b t t0 hst hpt h]
  simp [Button.was_long_pressed]

theorem button_heldFires_disarmed (b : Button) (ts : List Int) (hst : b.stable = 0)
    (hlr : b.last_raw = 0) (hpt : b.pressed_time = none)
    (hev : b.long_press_event = false) : b.heldFires ts = 0 := by
  have hstep : ∀ t, b.heldStep t = (b, false) := by
    intro t
    unfold Button.heldStep Button.update
    rw [button_rawTracking_eq b t 0 hlr.symm, button_commit_eq b t 0 hst.symm,
      button_longPress_disarmed b t hpt]
    simp [Button.was_long_pressed, hev]
  induction ts with
  | nil => rfl
  | cons t ts ih => simp [Button.heldFires, hstep t, ih]

theorem button_heldFires_armed (b : Button) (t0 : Int) (times : List Int)
    (hst : b.stable = 0) (hlr : b.last_raw = 0) (hpt : b.pressed_time = some t0)
    (hev : b.long_press_event = false) :
    b.heldFires times =
      if times.any (fun t => decide (b.long_press_ms ≤ t - t0)) then 1 else 0 := by
  induction times with
  | nil => rfl
  | cons t ts ih =>
    by_cases hc : b.long_press_ms ≤ t - t0
    · have hzero : Button.heldFires
          { b with pressed_time := none, long_press_event := false } ts = 0 :=
        button_heldFires_disarmed _ ts hst hlr rfl rfl
      simp [Button.heldFires, button_heldStep_fire b t t0 hst hlr hpt hc, hzero,
        List.any_cons, hc]
    · simp [Button.heldFires, button_heldStep_below b t t0 hst hlr hpt hev hc, ih,
        List.any_cons, hc]

theorem button_release_commit_disarms (b : Button) (now raw : Int)
    (hst : b.stable = 0) (h : (b.update now raw).stable ≠ 0) :
    (b.update now raw).pressed_time = none := by
  unfold Button.update at h ⊢
  have h1s : (b.updateRawTracking now raw).stable = 0 := by
    rw [button_rawTracking_stable]; exact hst
  by_cases hc : (b.updateRawTracking now raw).debounce_ms ≤
      now - (b.updateRawTracking now raw).last_change ∧
      raw ≠ (b.updateRawTracking now raw).stable
  · by_cases hr : raw = 0
    · exfalso
      have hcs : ((b.updateRawTracking now raw).updateCommit now raw).stable = raw := by
        simp only [Button.updateCommit, if_pos hc, Button.is_pressed]
        split <;> rfl
      rw [button_longPress_stable, hcs] at h
      exact h hr
    · have hcc : (b.updateRawTracking now raw).updateCommit now raw =
          { b.updateRawTracking now raw with
              stable := raw, released_event := true, pressed_time := none } := by
        simp [Button.updateCommit, if_pos hc, Button.is_pressed, hr]
      rw [hcc, button_longPress_not_pressed _ _ hr]
  · exfalso
    rw [button_commit_skip _ _ _ hc, button_longPress_stable] at h
    exact h h1s

theorem button_disarmed_no_new_fire (b : Button) (now raw : Int)
    (hlp : 0 < b.long_press_ms) (hpt : b.pressed_time = none) :
    (b.update now raw).long_press_event = b.long_press_event := by
  unfold Button.update
  have h1pt : (b.updateRawTracking now raw).pressed_time = none := by
    rw [button_rawTracking_pressed_time]; exact hpt
  by_cases hc : (b.updateRawTracking now raw).debounce_ms ≤
      now - (b.updateRawTracking now raw).last_change ∧
      raw ≠ (b.updateRawTracking now raw).stable
  · by_cases hr : raw = 0
    · subst hr
      have hnolp : ¬ (b.updateRawTracking now 0).long_press_ms ≤ (0 : Int) := by
        rw [button_rawTracking_long_press_ms]
        omega
      simp [Button.updateCommit, if_pos hc, Button.is_pressed,
        Button.updateLongPress, hnolp, button_rawTracking_long_press_event]
    · have hcc : (b.updateRawTracking now raw).updateCommit now raw =
          { b.updateRawTracking now raw with
              stable := raw, released_event := true, pressed_time := none } := by
        simp [Button.updateCommit, if_pos hc, Button.is_pressed, hr]
      rw [hcc, button_longPress_not_pressed _ _ hr]
      exact button_rawTracking_long_press_event b now raw
  · rw [button_commit_skip _ _ _ hc, button_longPress_disarmed _ _ h1pt]
    exact button_rawTracking_long_press_event b now raw

/-- C9: (1) for a button whose press is committed (stable low, raw still
low, long-press timer armed at `t0`, event flag clear), running any number
of update-and-query loop iterations while the button stays held yields the
long-press query answering `True` exactly once when some iteration time
reaches `t0 + long_press_ms`, and zero times otherwise — it never repeats
while still held; (2) an update that commits a release disarms the timer;
(3) with a positive threshold, no update raises the long-press event while
the timer is disarmed, until a new press commit re-arms it. -/
theorem c9_long_press_fires_exactly_once :
    (∀ (b : Button) (t0 : Int) (times : List Int),
        b.stable = 0 → b.last_raw = 0 → b.pressed_time = some t0 →
        b.long_press_event = false →
        b.heldFires times =
          if times.any (fun t => decide (b.long_press_ms ≤ t - t0)) then 1 else 0) ∧
    (∀ (b : Button) (now raw : Int), b.stable = 0 →
        (b.update now raw).stable ≠ 0 → (b.update now raw).pressed_time = none) ∧
    (∀ (b : Button) (now raw : Int), 0 < b.long_press_ms → b.pressed_time = none →
        (b.update now raw).long_press_event = b.long_press_event) :=
  ⟨fun b t0 times hst hlr hpt hev => button_heldFires_armed b t0 times hst hlr hpt hev,
   fun b now raw hst h => button_release_commit_disarms b now raw hst h,
   fun b now raw hlp hpt => button_disarmed_no_new_fire b now raw hlp hpt⟩

/-- C9 witness: a button with a 600 ms threshold committed-pressed at time
0 and polled while held at times 100, 700, 800 and 900 answers the
long-press query exactly once. -/
theorem c9_long_press_fires_exactly_once_witness :
    Button.heldFires
      { debounce_ms := 30, long_press_ms := 600, last_raw := 0, stable := 0,
        last_change := 0, pressed_time := some 0, pressed_event := false,
        released_event := false, long_press_event := false }
      [100, 700, 800, 900] = 1 := by
  have h := c9_long_press_fires_exactly_once.1
    { debounce_ms := 30, long_press_ms := 600, last_raw := 0, stable := 0,
      last_change := 0, pressed_time := some 0, pressed_event := false,
      released_event := false, long_press_event := false }
    0 [100, 700, 800, 900] rfl rfl rfl rfl
  rw [h]
  rfl

/-! ## C1: chord hold -/

/-- C1: with chord hold enabled, (1) releasing a sounding degree leaves its
active-set entry (and the whole state) in place and emits no event at all;
(2) disabling hold releases the held degree, with a `ChordReleased` event
and removal from the active set; (3) triggering a different degree first
fires `ChordReleased` for the held degree, removes it, and the new degree
becomes the held one. -/
theorem c1_chord_hold_semantics :
    (∀ (s : HoldUIState) (d : Nat) (ns : List Int),
        s.chord_hold = true → dictFind s.active_chords d = some ns →
        s.release_chord d = (s, [])) ∧
    (∀ (s : HoldUIState) (h : Nat),
        s.chord_hold = true → s.held_chord_degree = some h →
        s.toggle_chord_hold =
          ({ s with chord_hold := false, held_chord_degree := none,
                    active_chords := dictDel s.active_chords h },
           [UIEvent.chordReleased h, UIEvent.chordHoldChanged false])) ∧
    (∀ (s : HoldUIState) (h d : Nat) (s' : HoldUIState) (evs : List UIEvent),
        s.chord_hold = true → s.held_chord_degree = some h → h ≠ d →
        (s.active_chords.map Prod.fst).Nodup →
        s.trigger_chord d = some (s', evs) →
        (∃ nm num, evs = [UIEvent.chordReleased h,
            UIEvent.chordTriggered d (s.engine.chordNotes d) nm num]) ∧
        s'.held_chord_degree = some d ∧
        dictFind s'.active_chords h = none ∧
        dictFind s'.active_chords d = some (s.engine.chordNotes d)) := by
  refine ⟨?_, ?_, ?_⟩
  · intro s d ns hh hfind
    simp [HoldUIState.release_chord, hh]
  · intro s h hh hhd
    simp [HoldUIState.toggle_chord_hold, hh, hhd]
  · intro s h d s' evs hh hhd hne hnodup htr
    cases hgc : s.engine.get_chord d with
    | none => rw [HoldUIState.trigger_chord, hgc] at htr; simp at htr
    | some trip =>
      obtain ⟨notes, nm, num⟩ := trip
      rw [HoldUIState.trigger_chord, hgc] at htr
      simp only [Option.map_some', Option.some.injEq] at htr
      rw [hh, hhd] at htr
      simp only [hne, ne_eq, not_false_iff, if_true, Prod.mk.injEq] at htr
      obtain ⟨hs, he⟩ := htr
      have hcn : s.engine.chordNotes d = notes := by
        rw [ChordEngine.chordNotes, hgc]
      subst hs
      refine ⟨⟨nm, num, by rw [hcn, ← he]; rfl⟩, by simp [hh], ?_, ?_⟩
      · show dictFind (dictSet (dictDel s.active_chords h) d notes) h = none
        rw [dictFind_dictSet_ne _ _ _ _ hne]
        exact dictFind_dictDel_self _ _ hnodup
      · show dictFind (dictSet (dictDel s.active_chords h) d notes) d =
          some (s.engine.chordNotes d)
        rw [hcn]
        exact dictFind_dictSet_self _ _ _

/-- C1 witness: the spec scenario — hold on, degree 0 held and sounding;
releasing 0 changes nothing and fires nothing; disabling hold would
release it; triggering degree 2 fires `ChordReleased{0}` then the trigger,
and degree 2 becomes held. -/
theorem c1_chord_hold_semantics_witness :
    (HoldUIState.release_chord
        ⟨ChordEngine.init 60 "major", true, some 0, [(0, [60, 64, 67])]⟩ 0 =
      (⟨ChordEngine.init 60 "major", true, some 0, [(0, [60, 64, 67])]⟩, [])) ∧
    (HoldUIState.toggle_chord_hold
        ⟨ChordEngine.init 60 "major", true, some 0, [(0, [60, 64, 67])]⟩ =
      ({ (⟨ChordEngine.init 60 "major", true, some 0,
            [(0, [60, 64, 67])]⟩ : HoldUIState) with
          chord_hold := false, held_chord_degree := none,
          active_chords := dictDel [(0, [60, 64, 67])] 0 },
       [UIEvent.chordReleased 0, UIEvent.chordHoldChanged false])) ∧
    ((HoldUIState.trigger_chord
        ⟨ChordEngine.init 60 "major", true, some 0, [(0, [60, 64, 67])]⟩ 2).map
          (fun r => (r.1.held_chord_degree, dictFind r.1.active_chords 0)) =
      some (some 2, none)) := by
  have h3 := c1_chord_hold_semantics.2.2
    ⟨ChordEngine.init 60 "major", true, some 0, [(0, [60, 64, 67])]⟩ 0 2
    ((HoldUIState.trigger_chord
        ⟨ChordEngine.init 60 "major", true, some 0, [(0, [60, 64, 67])]⟩ 2).getD
      (⟨ChordEngine.init 60 "major", true, some 0, [(0, [60, 64, 67])]⟩, [])).1
    ((HoldUIState.trigger_chord
        ⟨ChordEngine.init 60 "major", true, some 0, [(0, [60, 64, 67])]⟩ 2).getD
      (⟨ChordEngine.init 60 "major", true, some 0, [(0, [60, 64, 67])]⟩, [])).2
    rfl rfl (by decide) (by decide) (by decide)
  refine ⟨c1_chord_hold_semantics.1
      ⟨ChordEngine.init 60 "major", true, some 0, [(0, [60, 64, 67])]⟩ 0
      [60, 64, 67] rfl (by decide),
    c1_chord_hold_semantics.2.1
      ⟨ChordEngine.init 60 "major", true, some 0, [(0, [60, 64, 67])]⟩ 0 rfl rfl,
    ?_⟩
  have hheld := h3.2.1
  have hgone := h3.2.2.1
  rw [show HoldUIState.trigger_chord
      ⟨ChordEngine.init 60 "major", true, some 0, [(0, [60, 64, 67])]⟩ 2 =
      some ((HoldUIState.trigger_chord
        ⟨ChordEngine.init 60 "major", true, some 0, [(0, [60, 64, 67])]⟩ 2).getD
          (⟨ChordEngine.init 60 "major", true, some 0, [(0, [60, 64, 67])]⟩, []))
      from by decide]
  simp only [Option.map_some', Option.some.injEq, Prod.mk.injEq]
  exact ⟨hheld, hgone⟩

/-! ## C3: display dirty flag -/

/-- C3 counterexample: starting from a state whose display has just been
refreshed (`display_dirty = false`) while degree 0 is the active chord,
`release_chord(0)` changes the active chord degree — state that
`get_display_data` consumes, and the returned display data does change —
but leaves `display_dirty` false, so the claim that every
display-relevant mutation sets the flag is false. -/
theorem c3_counterexample :
    ((UIState.release_chord
        { UIState.init (ChordEngine.init 60 "major") with
            active_chord_degree := some 0, display_dirty := false } 0).map
      (fun r => (r.1.display_dirty, r.1.active_chord_degree)) =
        some (false, none)) ∧
    ((UIState.release_chord
        { UIState.init (ChordEngine.init 60 "major") with
            active_chord_degree := some 0, display_dirty := false } 0).map
      (fun r => r.1.get_display_data) ≠
        some (UIState.get_display_data
          { UIState.init (ChordEngine.init 60 "major") with
              active_chord_degree := some 0, display_dirty := false })) ∧
    ({ UIState.init (ChordEngine.init 60 "major") with
        active_chord_degree := some 0,
        display_dirty := false } : UIState).display_dirty = false := by
  decide

theorem update_encoder_dirty_or_same (s : UIState) (delta : Int) :
    (s.update_encoder delta).1.display_dirty = true ∨
    (s.update_encoder delta).1 =
      { s with encoder_value := s.encoder_value + delta } := by
  by_cases h1 : s.mode == Mode.PLAY
  · exact Or.inl (by simp [UIState.update_encoder, h1])
  · by_cases h2 : s.mode == Mode.ROOT_SELECT
    · exact Or.inl (by simp [UIState.update_encoder, h1, h2])
    · by_cases h3 : s.mode == Mode.SCALE_SELECT
      · exact Or.inl (by simp [UIState.update_encoder, UIState.set_scale, h1, h2, h3])
      · exact Or.inr (by simp [UIState.update_encoder, h1, h2, h3])

theorem set_mode_dirty_or_id (s : UIState) (m : String) :
    (s.set_mode m).1.display_dirty = true ∨ s.set_mode m = (s, []) := by
  by_cases h1 : m ∈ Mode.ALL
  · exact Or.inl (by simp [UIState.set_mode, h1])
  · exact Or.inr (by simp [UIState.set_mode, h1])

/-- C3 (amended): every `UIState` operation other than `release_chord`
either sets `display_dirty` or leaves the display data unchanged;
`release_chord` mutates the active chord degree without setting the flag;
no operation ever clears the flag (it can only go from false to true), and
only `clear_display_dirty` resets it. -/
theorem c3_dirty_flag_discipline (s : UIState) (op : UIOp) (s' : UIState)
    (evs : List UIEvent) (h : s.applyOp op = some (s', evs)) :
    (s.display_dirty = true → s'.display_dirty = true) ∧
    ((∀ d, op ≠ UIOp.releaseChord d) →
      (s'.display_dirty = true ∨ s'.get_display_data = s.get_display_data)) ∧
    s.clear_display_dirty.display_dirty = false := by
  cases op with
  | setScale i =>
    simp only [UIState.applyOp, UIState.set_scale, Option.some.injEq,
      Prod.mk.injEq] at h
    obtain ⟨hs, he⟩ := h
    subst hs
    exact ⟨fun _ => rfl, fun _ => Or.inl rfl, rfl⟩
  | triggerChord d =>
    simp only [UIState.applyOp] at h
    unfold UIState.trigger_chord at h
    by_cases hd : d < 8
    · rw [if_pos hd] at h
      cases hgc : s.engine.get_chord (d : Int) with
      | none => rw [hgc] at h; simp at h
      | some trip =>
        obtain ⟨notes, nm, num⟩ := trip
        rw [hgc] at h
        simp only [Option.map_some', Option.some.injEq, Prod.mk.injEq] at h
        obtain ⟨hs, he⟩ := h
        subst hs
        exact ⟨fun _ => rfl, fun _ => Or.inl rfl, rfl⟩
    · rw [if_neg hd] at h
      simp at h
  | releaseChord d =>
    simp only [UIState.applyOp] at h
    unfold UIState.release_chord at h
    by_cases hd : d < 8
    · rw [if_pos hd] at h
      simp only [Option.some.injEq, Prod.mk.injEq] at h
      obtain ⟨hs, he⟩ := h
      subst hs
      exact ⟨fun hdirty => hdirty, fun hno => absurd rfl (hno d), rfl⟩
    · rw [if_neg hd] at h
      simp at h
  | updateEncoder delta =>
    simp only [UIState.applyOp, Option.some.injEq] at h
    have hs1 : (s.update_encoder delta).1 = s' := by rw [h]
    rcases update_encoder_dirty_or_same s delta with hdd | hsame
    · rw [hs1] at hdd
      exact ⟨fun _ => hdd, fun _ => Or.inl hdd, rfl⟩
    · rw [hs1] at hsame
      subst hsame
      exact ⟨fun hdirty => hdirty, fun _ => Or.inr rfl, rfl⟩
  | toggleMode =>
    simp only [UIState.applyOp, UIState.toggle_mode, Option.some.injEq,
      Prod.mk.injEq] at h
    obtain ⟨hs, he⟩ := h
    subst hs
    exact ⟨fun _ => rfl, fun _ => Or.inl rfl, rfl⟩
  | setMode m =>
    simp only [UIState.applyOp, Option.some.injEq] at h
    rcases set_mode_dirty_or_id s m with hdd | hsame
    · have hs1 : (s.set_mode m).1 = s' := by rw [h]
      rw [hs1] at hdd
      exact ⟨fun _ => hdd, fun _ => Or.inl hdd, rfl⟩
    · rw [hsame] at h
      rw [Prod.mk.injEq] at h
      obtain ⟨hs, he⟩ := h
      subst hs
      exact ⟨fun hdirty => hdirty, fun _ => Or.inr rfl, rfl⟩

/-- C3 witness: the amended discipline applied at `toggle_mode` on the
freshly initialized state. -/
theorem c3_dirty_flag_discipline_witness :
    (UIState.init (ChordEngine.init 60 "major")).toggle_mode.1.display_dirty =
      true :=
  (c3_dirty_flag_discipline (UIState.init (ChordEngine.init 60 "major"))
      UIOp.toggleMode
      (UIState.init (ChordEngine.init 60 "major")).toggle_mode.1
      (UIState.init (ChordEngine.init 60 "major")).toggle_mode.2 rfl).1 rfl

/-! ## C6: release sends the trigger-time note list -/

theorem dispatchEvent_eq_self (a : AppState) (e : UIEvent)
    (h : isChordEvent e = false) : dispatchEvent a e = a := by
  cases e <;> simp [isChordEvent] at h <;> rfl

theorem dispatchEvents_eq_self (a : AppState) (evs : List UIEvent)
    (h : ∀ e ∈ evs, isChordEvent e = false) : dispatchEvents a evs = a := by
  induction evs generalizing a with
  | nil => rfl
  | cons e rest ih =>
    have he : isChordEvent e = false := h e (List.mem_cons_self e rest)
    show dispatchEvents (dispatchEvent a e) rest = a
    rw [dispatchEvent_eq_self a e he]
    exact ih a (fun x hx => h x (List.mem_cons_of_mem e hx))

theorem update_encoder_events_no_chord (s : UIState) (delta : Int) :
    ∀ e ∈ (s.update_encoder delta).2, isChordEvent e = false := by
  by_cases h1 : s.mode == Mode.PLAY
  · simp [UIState.update_encoder, h1, isChordEvent]
  · by_cases h2 : s.mode == Mode.ROOT_SELECT
    · simp [UIState.update_encoder, h1, h2, isChordEvent]
    · by_cases h3 : s.mode == Mode.SCALE_SELECT
      · by_cases hdelta : delta > 0 <;>
          simp [UIState.update_encoder, UIState.set_scale, h1, h2, h3, hdelta,
            isChordEvent]
      · simp [UIState.update_encoder, h1, h2, h3, isChordEvent]

theorem set_mode_events_no_chord (s : UIState) (m : String) :
    ∀ e ∈ (s.set_mode m).2, isChordEvent e = false := by
  by_cases h1 : m ∈ Mode.ALL <;> simp [UIState.set_mode, h1, isChordEvent]

theorem applyMid_preserves (a : AppState) (m : MidOp) :
    (applyMid a m).midi_log = a.midi_log ∧
    (applyMid a m).active_notes_by_degree = a.active_notes_by_degree ∧
    (applyMid a m).midi_channel = a.midi_channel := by
  cases m with
  | setScale i =>
    simp only [applyMid, AppState.setScale]
    rw [dispatchEvents_eq_self _ _ (by simp [UIState.set_scale, isChordEvent])]
    exact ⟨rfl, rfl, rfl⟩
  | updateEncoder delta =>
    simp only [applyMid, AppState.updateEncoder]
    rw [dispatchEvents_eq_self _ _ (update_encoder_events_no_chord a.ui delta)]
    exact ⟨rfl, rfl, rfl⟩
  | toggleMode =>
    simp only [applyMid, AppState.toggleMode]
    rw [dispatchEvents_eq_self _ _ (by simp [UIState.toggle_mode, isChordEvent])]
    exact ⟨rfl, rfl, rfl⟩
  | setMode mo =>
    simp only [applyMid, AppState.setMode]
    rw [dispatchEvents_eq_self _ _ (set_mode_events_no_chord a.ui mo)]
    exact ⟨rfl, rfl, rfl⟩

theorem applyMids_preserves (a : AppState) (mids : List MidOp) :
    (applyMids a mids).midi_log = a.midi_log ∧
    (applyMids a mids).active_notes_by_degree = a.active_notes_by_degree ∧
    (applyMids a mids).midi_channel = a.midi_channel := by
  induction mids generalizing a with
  | nil => exact ⟨rfl, rfl, rfl⟩
  | cons m rest ih =>
    have h1 := applyMid_preserves a m
    have h2 := ih (applyMid a m)
    show ((applyMids (applyMid a m) rest).midi_log = _) ∧ _
    exact ⟨h2.1.trans h1.1, h2.2.1.trans h1.2.1, h2.2.2.trans h1.2.2⟩

theorem onChordReleased_found (a : AppState) (d : Nat) (ns : List Int)
    (h : dictFind a.active_notes_by_degree d = some ns) :
    (onChordReleased a d).midi_log =
      a.midi_log ++ ns.map (fun n => MidiMsg.noteOff a.midi_channel n 0) ∧
    (onChordReleased a d).active_notes_by_degree =
      dictDel a.active_notes_by_degree d := by
  simp only [onChordReleased, h]
  split <;> exact ⟨rfl, rfl⟩

/-- C6: after `trigger_chord(d)` and then any sequence of root, scale,
octave and mode changes, releasing degree `d` makes the coordinator send
note-off for exactly the note list recorded at trigger time — the chord
computed from the engine state as it was at the trigger, not a
recomputation — and remove the record for `d`. -/
theorem c6_release_uses_trigger_time_notes (a : AppState) (d : Nat)
    (mids : List MidOp) (a1 a3 : AppState)
    (h1 : a.triggerChord d = some a1)
    (h3 : (applyMids a1 mids).releaseChord d = some a3) :
    dictFind (applyMids a1 mids).active_notes_by_degree d =
      some (a.ui.engine.chordNotes d) ∧
    a3.midi_log = (applyMids a1 mids).midi_log ++
      (a.ui.engine.chordNotes d).map
        (fun n => MidiMsg.noteOff a.midi_channel n 0) ∧
    a3.active_notes_by_degree =
      dictDel (applyMids a1 mids).active_notes_by_degree d := by
  unfold AppState.triggerChord at h1
  cases htr : a.ui.trigger_chord d with
  | none => rw [htr] at h1; simp at h1
  | some r =>
    rw [htr] at h1
    simp only [Option.map_some', Option.some.injEq] at h1
    unfold UIState.trigger_chord at htr
    by_cases hd : d < 8
    · rw [if_pos hd] at htr
      cases hgc : a.ui.engine.get_chord d with
      | none => rw [hgc] at htr; simp at htr
      | some trip =>
        obtain ⟨notes, nm, num⟩ := trip
        rw [hgc] at htr
        simp only [Option.map_some', Option.some.injEq] at htr
        subst htr
        simp only [dispatchEvents, List.foldl, dispatchEvent] at h1
        have hcn : a.ui.engine.chordNotes d = notes := by
          rw [ChordEngine.chordNotes, hgc]
        have ha1deg : a1.active_notes_by_degree =
            dictSet a.active_notes_by_degree d notes := by
          rw [← h1]; rfl
        have ha1ch : a1.midi_channel = a.midi_channel := by rw [← h1]; rfl
        obtain ⟨hmlog, hmdeg, hmch⟩ := applyMids_preserves a1 mids
        have hfind : dictFind (applyMids a1 mids).active_notes_by_degree d =
            some notes := by
          rw [hmdeg, ha1deg]
          exact dictFind_dictSet_self _ _ _
        unfold AppState.releaseChord at h3
        unfold UIState.release_chord at h3
        rw [if_pos hd] at h3
        simp only [Option.map_some', Option.some.injEq] at h3
        simp only [dispatchEvents, List.foldl, dispatchEvent] at h3
        obtain ⟨hrel1, hrel2⟩ := onChordReleased_found
          { applyMids a1 mids with
              ui := { (applyMids a1 mids).ui with
                active_chord_degree :=
                  if (applyMids a1 mids).ui.active_chord_degree == some d then
                    none
                  else (applyMids a1 mids).ui.active_chord_degree
                led_states := (applyMids a1 mids).ui.led_states.set d false } }
          d notes hfind
        rw [hcn]
        refine ⟨hfind, ?_, ?_⟩
        · rw [← h3, hrel1]
          show (applyMids a1 mids).midi_log ++
              notes.map (fun n =>
                MidiMsg.noteOff (applyMids a1 mids).midi_channel n 0) = _
          rw [hmch, ha1ch]
        · rw [← h3, hrel2]
    · rw [if_neg hd] at htr
      simp at htr

/-- C6 witness: trigger degree 0 on the fresh app, change the octave while
holding, release degree 0: the record still holds the trigger-time C major
triad 60-64-67. -/
theorem c6_release_uses_trigger_time_notes_witness :
    dictFind (applyMids
        ((AppState.triggerChord
          { ui := UIState.init (ChordEngine.init 60 "major"), midi_channel := 0,
            velocity := 100, active_notes_by_degree := [],
            active_notes_by_pad := [], current_chord_degree := none,
            midi_log := [] } 0).getD
          { ui := UIState.init (ChordEngine.init 60 "major"), midi_channel := 0,
            velocity := 100, active_notes_by_degree := [],
            active_notes_by_pad := [], current_chord_degree := none,
            midi_log := [] })
        [MidOp.updateEncoder 1]).active_notes_by_degree 0 =
      some [60, 64, 67] := by
  have h := (c6_release_uses_trigger_time_notes
    { ui := UIState.init (ChordEngine.init 60 "major"), midi_channel := 0,
      velocity := 100, active_notes_by_degree := [],
      active_notes_by_pad := [], current_chord_degree := none,
      midi_log := [] } 0 [MidOp.updateEncoder 1]
    ((AppState.triggerChord
        { ui := UIState.init (ChordEngine.init 60 "major"), midi_channel := 0,
          velocity := 100, active_notes_by_degree := [],
          active_notes_by_pad := [], current_chord_degree := none,
          midi_log := [] } 0).getD
      { ui := UIState.init (ChordEngine.init 60 "major"), midi_channel := 0,
        velocity := 100, active_notes_by_degree := [],
        active_notes_by_pad := [], current_chord_degree := none,
        midi_log := [] })
    ((AppState.releaseChord (applyMids
        ((AppState.triggerChord
          { ui := UIState.init (ChordEngine.init 60 "major"), midi_channel := 0,
            velocity := 100, active_notes_by_degree := [],
            active_notes_by_pad := [], current_chord_degree := none,
            midi_log := [] } 0).getD
          { ui := UIState.init (ChordEngine.init 60 "major"), midi_channel := 0,
            velocity := 100, active_notes_by_degree := [],
            active_notes_by_pad := [], current_chord_degree := none,
            midi_log := [] })
        [MidOp.updateEncoder 1]) 0).getD
      { ui := UIState.init (ChordEngine.init 60 "major"), midi_channel := 0,
        velocity := 100, active_notes_by_degree := [],
        active_notes_by_pad := [], current_chord_degree := none,
        midi_log := [] })
    (by decide) (by decide)).1
  rw [h]
  decide

end ChordMachine
